import Mathlib

/-!
# Verification of the SMART-on-FHIR Express middleware (`src/lib/express.js`)

This file shallowly embeds the authorization middleware of the repository:
the storage adapter over the request session, the two-hop client-state
resolution in `getClient`, and the three middleware entry points
`authorize`, `completeAuth` and `refreshAuth`.  JavaScript query parameters
and configuration options are modelled as `Option String`, with JS string
truthiness made explicit (`undefined` and `""` are falsy).  The session is
an association list from string keys to stored values.  Delegated
collaborator calls (`smart.completeAuth`, `client.refresh`) are modelled as
explicit result parameters, and each middleware function returns a pure
outcome describing what it wrote to the response, whether it delegated the
token exchange, and whether it called `next`.
-/

namespace SmartExpress

/-- JS truthiness of an optional string value: `undefined` and the empty
string are falsy, every other string is truthy. -/
def jsTruthyOpt : Option String → Bool
  | none => false
  | some s => s != ""

/-- A value stored in the request session: either a string (such as the
`smartId` indirection pointer) or an authorization state blob. -/
inductive SessVal where
  | str (s : String)
  | blob (serverUrl accessToken : String) (expiresAt : Nat)
      (refreshToken : Option String) (scope : String)
  deriving DecidableEq, Repr

/-- JS truthiness of a session value: a string is truthy iff non-empty, an
object is always truthy. -/
def SessVal.truthy : SessVal → Bool
  | .str s => s != ""
  | .blob _ _ _ _ _ => true

/-- The string a session value coerces to when used as a property key
(`request.session[id]`): a string is used verbatim; a plain object
stringifies to `"[object Object]"`. -/
def SessVal.asKey : SessVal → String
  | .str s => s
  | .blob _ _ _ _ _ => "[object Object]"

/-- The request session, as manipulated by the default storage factory
`getStorage` in `src/lib/express.js`: a key/value map, modelled as an
association list. -/
abbrev Session : Type := List (String × SessVal)

/-- `storage.get(key)` of the default storage: reads `request.session[key]`,
returning the stored value or `undefined` (`none`). -/
def storageGet : Session → String → Option SessVal
  | [], _ => none
  | (k, v) :: rest, key => if k = key then some v else storageGet rest key

/-- The middleware configuration options recognized by `src/lib/express.js`
(`cfg.serverUrl`, `cfg.redirectUri`); absent options are `undefined`. -/
structure Config where
  serverUrl : Option String
  redirectUri : Option String
  deriving DecidableEq, Repr

/-- Modelled from the spec: the `FhirClient` collaborator (`./client`, not
part of the visible source) is constructed from an authorization state
blob; `new Client(state)` wraps the stored state verbatim. -/
structure Client where
  state : SessVal
  deriving DecidableEq, Repr

/-- The observable effect of one run of `getClient request`: the returned
value (`some` client or `null`), the session after the run, and the list of
storage keys read, in order. -/
structure GetClientRun where
  result : Option Client
  session : Session
  reads : List String
  deriving DecidableEq, Repr

/-- Shallow embedding of `getClient` from `src/lib/express.js` (lines
67–77), instantiated with the default session storage from the same file:
read `smartId`; if the value is truthy, read the blob stored under it; if
that is truthy, return `new Client(state)`; otherwise return `null`.  The
default storage's `get` never writes, so the session component records
that each run leaves the session unchanged. -/
def getClientRun (s : Session) : GetClientRun :=
  match storageGet s "smartId" with
  | none => ⟨none, s, ["smartId"]⟩
  | some idv =>
    if idv.truthy then
      match storageGet s idv.asKey with
      | none => ⟨none, s, ["smartId", idv.asKey]⟩
      | some st =>
        if st.truthy then ⟨some ⟨st⟩, s, ["smartId", idv.asKey]⟩
        else ⟨none, s, ["smartId", idv.asKey]⟩
    else ⟨none, s, ["smartId"]⟩

/-- The value `getClient` resolves to on a given session. -/
def getClient (s : Session) : Option Client :=
  (getClientRun s).result

/-- What `authorize` does with a request: delegate to `smart.authorize`
(which issues the redirect) or call `next()`. -/
inductive AuthorizeOutcome where
  | redirect
  | callNext
  deriving DecidableEq, Repr

/-- The query parameters read by `authorize`. -/
structure AuthQuery where
  launch : Option String
  iss : Option String
  fhirServiceUrl : Option String
  deriving DecidableEq, Repr

/-- Shallow embedding of `authorize` from `src/lib/express.js` (lines
89–95): `if ((launch && iss) || fhirServiceUrl || cfg.serverUrl)` delegate
to `smart.authorize`, else `next()`. -/
def authorize (cfg : Config) (q : AuthQuery) : AuthorizeOutcome :=
  if (jsTruthyOpt q.launch && jsTruthyOpt q.iss)
      || jsTruthyOpt q.fhirServiceUrl || jsTruthyOpt cfg.serverUrl
  then .redirect
  else .callNext

/-- The query parameters read by `completeAuth`. -/
structure CallbackQuery where
  code : Option String
  state : Option String
  error : Option String
  error_description : Option String
  deriving DecidableEq, Repr

/-- Result of the delegated `smart.completeAuth` code exchange: the promise
resolves, or rejects with an error whose `httpCode` field may be absent. -/
inductive ExchangeResult where
  | ok
  | fail (httpCode : Option Nat)
  deriving DecidableEq, Repr

/-- What `completeAuth` writes to the response:
* `endBody body` — `res.end(msg)` in the error branch (default 200 status);
* `redirectTo uri` — `res.redirect(cfg.redirectUri)` on successful exchange;
* `failWrite status` — on failed exchange, `res.writeHead(error.httpCode ||
  500, {Content-Type: text/plain})` followed by `res.end(msg, "utf8")`,
  where `msg` is not in scope (it is declared with `let` inside the
  `if (error)` block), so the `res.end` call throws a `ReferenceError` and
  no body is written;
* `callNext` — `next()`, nothing written. -/
inductive CompleteOutcome where
  | endBody (body : String)
  | redirectTo (uri : Option String)
  | failWrite (status : Nat)
  | callNext
  deriving DecidableEq, Repr

/-- The observable effect of one run of `completeAuth`: the response
outcome, whether the delegated code exchange was invoked, and whether the
response-body write throws (the out-of-scope `msg` in the failure path). -/
structure CompleteResult where
  outcome : CompleteOutcome
  exchangeAttempted : Bool
  bodyWriteThrows : Bool
  deriving DecidableEq, Repr

/-- JS `x || d` for the optional numeric `error.httpCode`: `undefined` and
`0` are falsy and yield the default. -/
def jsOrDefault (c : Option Nat) (d : Nat) : Nat :=
  match c with
  | none => d
  | some n => if n == 0 then d else n

/-- The message built in the `error` branch of `completeAuth`:
`error + (error_description ? ":\n" + error_description : "")`. -/
def errorMsg (q : CallbackQuery) : String :=
  q.error.getD "" ++
    (if jsTruthyOpt q.error_description then ":\n" ++ q.error_description.getD "" else "")

/-- Shallow embedding of `completeAuth` from `src/lib/express.js` (lines
109–130).  If `error` is truthy, end the response with the built message
(no exchange).  Else if `code && state`, delegate the exchange: on success
redirect to `cfg.redirectUri`; on failure write head with
`error.httpCode || 500` and `text/plain`, then attempt `res.end(msg)` with
`msg` out of scope (the write throws).  Otherwise call `next()`. -/
def completeAuth (cfg : Config) (q : CallbackQuery) (exch : ExchangeResult) :
    CompleteResult :=
  if jsTruthyOpt q.error then
    ⟨.endBody (errorMsg q), false, false⟩
  else if jsTruthyOpt q.code && jsTruthyOpt q.state then
    match exch with
    | .ok => ⟨.redirectTo cfg.redirectUri, true, false⟩
    | .fail httpCode => ⟨.failWrite (jsOrDefault httpCode 500), true, true⟩
  else
    ⟨.callNext, false, false⟩

/-- What `refreshAuth` does: end the response with a body, or call `next()`. -/
inductive RefreshOutcome where
  | respond (body : String)
  | callNext
  deriving DecidableEq, Repr

/-- The fixed message `refreshAuth` responds with when no client state is
found in the session. -/
def lostSessionMsg : String :=
  "No smart state found in session. Please re-authorize your app."

/-- Result of the delegated `client.refresh()` call: resolves, or rejects
with an error carrying a message. -/
inductive RefreshResult where
  | ok
  | fail (message : String)
  deriving DecidableEq, Repr

/-- Shallow embedding of `refreshAuth` from `src/lib/express.js` (lines
141–150): resolve the client via `getClient`; if `null`, end the response
with the fixed lost-session message; otherwise delegate to
`client.refresh()` and call `next()` on success or end the response with
the error's message on failure. -/
def refreshAuth (s : Session) (r : RefreshResult) : RefreshOutcome :=
  match getClient s with
  | none => .respond lostSessionMsg
  | some _ =>
    match r with
    | .ok => .callNext
    | .fail m => .respond m

/-- Helper: the default storage's `get` never writes, so one run of
`getClient` leaves the session unchanged. -/
theorem getClientRun_session_eq (s : Session) : (getClientRun s).session = s := by
  unfold getClientRun
  split
  · rfl
  · split
    · split
      · rfl
      · split <;> rfl
    · rfl

/-- Helper: the first condition of `completeAuth` in terms of the query. -/
theorem completeAuth_of_error (cfg : Config) (q : CallbackQuery)
    (exch : ExchangeResult) (h : jsTruthyOpt q.error = true) :
    completeAuth cfg q exch = ⟨.endBody (errorMsg q), false, false⟩ := by
  unfold completeAuth
  rw [h]
  rfl

/-- C1: on a callback with truthy `code` and `state` and no `error`, when
the delegated exchange rejects (here with `httpCode = 401`), `completeAuth`
writes the response head with the failure's status, but then evaluates
`res.end(msg, "utf8")` where `msg` is declared only inside the `if (error)`
block, so the body write throws a `ReferenceError` and no plain-text error
body is sent — contradicting the documented behavior. -/
theorem completeAuth_failure_write_throws :
    completeAuth ⟨none, some "https://app/after-auth"⟩
        ⟨some "abc", some "xyz", none, none⟩ (.fail (some 401)) =
      ⟨.failWrite 401, true, true⟩ := by
  decide

/-- C2: `authorize` delegates the authorization redirect exactly when the
query carries both `launch` and `iss` values, or carries a
`fhirServiceUrl`, or a `serverUrl` is configured; in every other case it
calls `next` (and, by the shape of `AuthorizeOutcome`, writes nothing). -/
theorem authorize_decision (cfg : Config) (q : AuthQuery) :
    (authorize cfg q = .redirect ↔
      ((jsTruthyOpt q.launch = true ∧ jsTruthyOpt q.iss = true) ∨
        jsTruthyOpt q.fhirServiceUrl = true ∨ jsTruthyOpt cfg.serverUrl = true)) ∧
    (authorize cfg q = .callNext ↔
      ¬((jsTruthyOpt q.launch = true ∧ jsTruthyOpt q.iss = true) ∨
        jsTruthyOpt q.fhirServiceUrl = true ∨ jsTruthyOpt cfg.serverUrl = true)) := by
  have hcond : (((jsTruthyOpt q.launch && jsTruthyOpt q.iss)
      || jsTruthyOpt q.fhirServiceUrl || jsTruthyOpt cfg.serverUrl) = true) ↔
      ((jsTruthyOpt q.launch = true ∧ jsTruthyOpt q.iss = true) ∨
        jsTruthyOpt q.fhirServiceUrl = true ∨ jsTruthyOpt cfg.serverUrl = true) := by
    simp [or_assoc]
  unfold authorize
  by_cases h : ((jsTruthyOpt q.launch && jsTruthyOpt q.iss)
      || jsTruthyOpt q.fhirServiceUrl || jsTruthyOpt cfg.serverUrl) = true
  · rw [if_pos h]
    exact ⟨iff_of_true rfl (hcond.mp h),
      iff_of_false (by simp) (not_not_intro (hcond.mp h))⟩
  · rw [if_neg h]
    exact ⟨iff_of_false (by simp) (fun hp => h (hcond.mpr hp)),
      iff_of_true rfl (fun hp => h (hcond.mpr hp))⟩

/-- C3: when the callback query carries a truthy `error` parameter, even if
`code` and `state` are present, `completeAuth` ends the response with the
built message — which contains the error string and, whenever an
`error_description` is present, that string too — attempts no token
exchange, and does not call `next`.  The conclusion holds for every
exchange result, which also expresses that the outcome never consults the
delegated exchange. -/
theorem completeAuth_error_precedence (cfg : Config) (q : CallbackQuery)
    (exch : ExchangeResult) (h : jsTruthyOpt q.error = true) :
    (completeAuth cfg q exch).outcome = .endBody (errorMsg q) ∧
    (q.error.getD "").data <:+: (errorMsg q).data ∧
    (∀ d, q.error_description = some d → d.data <:+: (errorMsg q).data) ∧
    (completeAuth cfg q exch).exchangeAttempted = false ∧
    (completeAuth cfg q exch).outcome ≠ .callNext := by
  rw [completeAuth_of_error cfg q exch h]
  refine ⟨rfl, ?_, ?_, rfl, by simp⟩
  · unfold errorMsg
    rw [String.data_append]
    exact (List.prefix_append _ _).isInfix
  · intro d hd
    unfold errorMsg
    rw [String.data_append]
    rcases eq_or_ne d "" with h0 | h0
    · subst h0
      exact List.nil_infix
    · have htr : jsTruthyOpt q.error_description = true := by
        rw [hd]
        simpa [jsTruthyOpt] using h0
      rw [htr, hd]
      simp only [if_pos rfl, Option.getD_some, String.data_append]
      exact (List.suffix_append _ _).isInfix.trans (List.suffix_append _ _).isInfix

/-- C3 witness: query `{error: "access_denied", error_description: "user
cancelled"}` ends the response with a body containing both strings, with no
exchange and no `next`. -/
theorem completeAuth_error_precedence_witness :
    jsTruthyOpt (some "access_denied") = true ∧
    ((completeAuth ⟨none, none⟩
        ⟨none, none, some "access_denied", some "user cancelled"⟩ .ok).outcome =
      .endBody (errorMsg ⟨none, none, some "access_denied", some "user cancelled"⟩) ∧
    ((some "access_denied" : Option String).getD "").data <:+:
      (errorMsg ⟨none, none, some "access_denied", some "user cancelled"⟩).data ∧
    (∀ d, (some "user cancelled" : Option String) = some d →
      d.data <:+:
        (errorMsg ⟨none, none, some "access_denied", some "user cancelled"⟩).data) ∧
    (completeAuth ⟨none, none⟩
        ⟨none, none, some "access_denied", some "user cancelled"⟩ .ok).exchangeAttempted =
      false ∧
    (completeAuth ⟨none, none⟩
        ⟨none, none, some "access_denied", some "user cancelled"⟩ .ok).outcome ≠
      .callNext) :=
  ⟨by decide,
    completeAuth_error_precedence ⟨none, none⟩
      ⟨none, none, some "access_denied", some "user cancelled"⟩ .ok (by decide)⟩

/-- C4: when the session holds no `smartId` pointer, or holds a pointer
string under whose value no blob is stored (dangling pointer), `getClient`
resolves to `null`; the two cases are indistinguishable in the result. -/
theorem getClient_absent_or_dangling_null (s : Session)
    (h : storageGet s "smartId" = none ∨
      ∃ id, storageGet s "smartId" = some (.str id) ∧ storageGet s id = none) :
    getClient s = none := by
  rcases h with h | ⟨id, hp, hb⟩
  · simp [getClient, getClientRun, h]
  · rcases eq_or_ne id "" with hid | hid
    · subst hid
      simp [getClient, getClientRun, hp, SessVal.truthy]
    · simp [getClient, getClientRun, hp, hb, SessVal.truthy, SessVal.asKey, hid]

/-- C4 witness: a dangling pointer (`smartId` points at `"abc"`, nothing
stored there) yields `null`. -/
theorem getClient_absent_or_dangling_null_witness :
    (storageGet [("smartId", SessVal.str "abc")] "smartId" = none ∨
      ∃ id, storageGet [("smartId", SessVal.str "abc")] "smartId" = some (.str id) ∧
        storageGet [("smartId", SessVal.str "abc")] id = none) ∧
    getClient [("smartId", SessVal.str "abc")] = none :=
  ⟨Or.inr ⟨"abc", by decide, by decide⟩,
    getClient_absent_or_dangling_null _ (Or.inr ⟨"abc", by decide, by decide⟩)⟩

/-- C5: when the `smartId` pointer is a non-empty string `id` and a blob is
stored under `id`, `getClient` returns a client constructed from exactly
that blob — the stored value is passed to the client constructor verbatim,
with no mutation or merging. -/
theorem getClient_resolved_blob (s : Session) (id u a : String) (e : Nat)
    (r : Option String) (sc : String)
    (hp : storageGet s "smartId" = some (.str id)) (hid : id ≠ "")
    (hb : storageGet s id = some (SessVal.blob u a e r sc)) :
    getClient s = some ⟨SessVal.blob u a e r sc⟩ := by
  simp [getClient, getClientRun, hp, hb, SessVal.truthy, SessVal.asKey, hid]

/-- C5 witness: a session whose pointer `"k1"` resolves to a concrete blob
yields the client wrapping exactly that blob. -/
theorem getClient_resolved_blob_witness :
    storageGet [("smartId", SessVal.str "k1"),
        ("k1", SessVal.blob "https://fhir.example" "token123" 3600 none "patient/*.read")]
      "smartId" = some (.str "k1") ∧
    getClient [("smartId", SessVal.str "k1"),
        ("k1", SessVal.blob "https://fhir.example" "token123" 3600 none "patient/*.read")] =
      some ⟨SessVal.blob "https://fhir.example" "token123" 3600 none "patient/*.read"⟩ :=
  ⟨by decide,
    getClient_resolved_blob _ "k1" "https://fhir.example" "token123" 3600 none
      "patient/*.read" (by decide) (by decide) (by decide)⟩

/-- C6: on a callback with truthy `code` and `state` and no `error`, when
the delegated exchange succeeds, `completeAuth` redirects to the configured
`redirectUri` and does not call `next`. -/
theorem completeAuth_success_redirects (cfg : Config) (q : CallbackQuery)
    (hc : jsTruthyOpt q.code = true) (hs : jsTruthyOpt q.state = true)
    (he : jsTruthyOpt q.error = false) :
    (completeAuth cfg q .ok).outcome = .redirectTo cfg.redirectUri ∧
    (completeAuth cfg q .ok).outcome ≠ .callNext := by
  unfold completeAuth
  rw [he, hc, hs]
  exact ⟨rfl, by simp⟩

/-- C6 witness: query `{code: "abc", state: "xyz"}` with a successful
exchange redirects to the configured `redirectUri`. -/
theorem completeAuth_success_redirects_witness :
    jsTruthyOpt (some "abc") = true ∧
    ((completeAuth ⟨none, some "https://app/after-auth"⟩
        ⟨some "abc", some "xyz", none, none⟩ .ok).outcome =
      .redirectTo (some "https://app/after-auth") ∧
      (completeAuth ⟨none, some "https://app/after-auth"⟩
        ⟨some "abc", some "xyz", none, none⟩ .ok).outcome ≠ .callNext) :=
  ⟨by decide,
    completeAuth_success_redirects ⟨none, some "https://app/after-auth"⟩
      ⟨some "abc", some "xyz", none, none⟩ (by decide) (by decide) (by decide)⟩

/-- C7: when the callback query carries no truthy `error` and not both a
truthy `code` and a truthy `state` (for example `code` without `state`),
`completeAuth` calls `next`, writes no response, and attempts no token
exchange — for every possible exchange result. -/
theorem completeAuth_passthrough_next (cfg : Config) (q : CallbackQuery)
    (exch : ExchangeResult) (he : jsTruthyOpt q.error = false)
    (hcs : ¬(jsTruthyOpt q.code = true ∧ jsTruthyOpt q.state = true)) :
    completeAuth cfg q exch = ⟨.callNext, false, false⟩ := by
  unfold completeAuth
  rw [he]
  have hand : (jsTruthyOpt q.code && jsTruthyOpt q.state) = false := by
    cases hcq : jsTruthyOpt q.code <;> cases hsq : jsTruthyOpt q.state <;> simp_all
  rw [hand]
  rfl

/-- C7 witness: query `{code: "abc"}` with no `state` passes through to
`next`. -/
theorem completeAuth_passthrough_next_witness :
    jsTruthyOpt (none : Option String) = false ∧
    completeAuth ⟨none, none⟩ ⟨some "abc", none, none, none⟩ .ok =
      ⟨.callNext, false, false⟩ :=
  ⟨by decide,
    completeAuth_passthrough_next ⟨none, none⟩ ⟨some "abc", none, none, none⟩ .ok
      (by decide) (by decide)⟩

/-- C8: when the session yields no resolvable client, `refreshAuth`
responds with the fixed lost-session instructional message and does not
call `next`, for every possible refresh result. -/
theorem refreshAuth_lost_session (s : Session) (r : RefreshResult)
    (h : getClient s = none) :
    refreshAuth s r = .respond lostSessionMsg ∧ refreshAuth s r ≠ .callNext := by
  unfold refreshAuth
  rw [h]
  exact ⟨rfl, by simp⟩

/-- C8 witness: an empty session responds with the lost-session message. -/
theorem refreshAuth_lost_session_witness :
    getClient [] = none ∧
    (refreshAuth [] .ok = .respond lostSessionMsg ∧ refreshAuth [] .ok ≠ .callNext) :=
  ⟨by decide, refreshAuth_lost_session [] .ok (by decide)⟩

/-- C9: running `getClient` twice in succession, the second run on the
session left by the first (which performs no storage writes), returns the
same result both times: both `null`, or the same client from the same
blob. -/
theorem getClient_idempotent (s : Session) :
    (getClientRun ((getClientRun s).session)).result = (getClientRun s).result ∧
    (getClientRun s).session = s := by
  rw [getClientRun_session_eq s]
  exact ⟨rfl, rfl⟩

/-- C10: when the session holds the `smartId` key with a falsy string value
(the empty string), `getClient` treats the pointer as absent: it returns
`null` and reads only the `"smartId"` key, never looking up a blob under
the falsy value. -/
theorem getClient_falsy_pointer (s : Session)
    (h : storageGet s "smartId" = some (.str "")) :
    (getClientRun s).result = none ∧ (getClientRun s).reads = ["smartId"] := by
  simp [getClientRun, h, SessVal.truthy]

/-- C10 witness: a session storing `smartId := ""` yields `null` having
read only `"smartId"`. -/
theorem getClient_falsy_pointer_witness :
    storageGet [("smartId", SessVal.str "")] "smartId" = some (.str "") ∧
    ((getClientRun [("smartId", SessVal.str "")]).result = none ∧
      (getClientRun [("smartId", SessVal.str "")]).reads = ["smartId"]) :=
  ⟨by decide, getClient_falsy_pointer _ (by decide)⟩

end SmartExpress
